import Mathlib

/-!
Verification development for the simplecashflow ledger core: an idempotent
event-ingestion and aggregation worker over a double-entry ledger data model,
together with its profit-and-loss reporting reader.  The repository's visible
files are manual verification scripts driving deployed services; the core
pipeline they exercise is modelled here from the specification.
-/

namespace SimpleCashflow

/-- Modelled from the spec: account type (asset/liability/income/expense/equity),
§3 Data Model, "Account ... type". -/
inductive AccountType where
  | asset
  | liability
  | income
  | expense
  | equity
deriving DecidableEq, Repr

/-- Modelled from the spec: Account row (identifier, company identifier, code,
name, type), §3 Data Model. -/
structure Account where
  id : Nat
  companyId : Nat
  code : String
  name : String
  atype : AccountType
deriving DecidableEq, Repr

/-- Modelled from the spec: JournalLine (account identifier, debit amount,
credit amount), §3 Data Model. -/
structure JournalLine where
  accountId : Nat
  debit : Int
  credit : Int
deriving DecidableEq, Repr

/-- Modelled from the spec: JournalEntry (identifier, company identifier, date,
description, ordered sequence of JournalLine), §3 Data Model.  Dates are
calendar days, modelled as naturals. -/
structure JournalEntry where
  id : Nat
  companyId : Nat
  date : Nat
  description : String
  lines : List JournalLine
deriving DecidableEq, Repr

/-- Modelled from the spec: the payload of a "journal.entry.created" envelope
(journalEntryId, companyId, totalDebit, totalCredit), §6 Envelope JSON shape. -/
structure EventPayload where
  journalEntryId : Nat
  companyId : Nat
  totalDebit : Int
  totalCredit : Int
deriving DecidableEq, Repr

/-- Modelled from the spec: EventEnvelope (eventId, eventType, schemaVersion,
occurredAt, companyId, source, payload), §3 Data Model and §6. -/
structure EventEnvelope where
  eventId : String
  eventType : String
  schemaVersion : String
  occurredAt : Nat
  companyId : Nat
  source : String
  payload : EventPayload
deriving DecidableEq, Repr

/-- Modelled from the spec: processing outcome recorded in the event log
(applied | duplicate-skipped), §3 Data Model. -/
inductive ProcessingOutcome where
  | applied
  | duplicateSkipped
deriving DecidableEq, Repr

/-- Modelled from the spec: EventLogRecord (eventId unique key, companyId,
eventType, processingOutcome), §3 Data Model. -/
structure EventLogRecord where
  eventId : String
  companyId : Nat
  eventType : String
  outcome : ProcessingOutcome
deriving DecidableEq, Repr

/-- Modelled from the spec: DailySummary row (companyId, date, totalIncome,
totalExpense), one row per (companyId, date), §3 Data Model. -/
structure DailySummary where
  companyId : Nat
  date : Nat
  totalIncome : Int
  totalExpense : Int
deriving DecidableEq, Repr

/-- Modelled from the spec: the Ledger Store plus Event Log — durable state that
all decisions are rederived from on each delivery, §2/§3 (accounts, journal
entries, event log, daily summaries). -/
structure Store where
  accounts : List Account
  entries : List JournalEntry
  eventLog : List EventLogRecord
  summaries : List DailySummary
deriving DecidableEq, Repr

/-- Modelled from the spec: the outcome of one handleDelivery invocation,
§4.1 and the error taxonomy of §7 (applied, duplicate-skipped as a successful
no-op, fatal decode/validation error, referenced entry not found). -/
inductive Outcome where
  | applied
  | duplicateSkipped
  | decodeError
  | entryNotFound
deriving DecidableEq, Repr

/-- Modelled from the spec: acknowledgment status returned to the transport,
§6/§7 — applied and duplicate-skipped deliveries are acknowledged as success,
malformed deliveries are acknowledged to stop redelivery storms, a missing
referenced entry is retriable (not acknowledged). -/
def ackOutcome : Outcome → Bool
  | Outcome.applied => true
  | Outcome.duplicateSkipped => true
  | Outcome.decodeError => true
  | Outcome.entryNotFound => false

/-- Modelled from the spec: account lookup used by the Aggregator to find the
type of the account a line posts to, §4.2. -/
def lookupAccountType (accounts : List Account) (aid : Nat) : Option AccountType :=
  (accounts.find? (fun a => a.id == aid)).map Account.atype

/-- Modelled from the spec: a single line's contribution to incomeDelta —
`credit - debit` on income accounts, nothing otherwise, §4.2. -/
def lineIncomeDelta (accounts : List Account) (l : JournalLine) : Int :=
  match lookupAccountType accounts l.accountId with
  | some AccountType.income => l.credit - l.debit
  | _ => 0

/-- Modelled from the spec: a single line's contribution to expenseDelta —
`debit - credit` on expense accounts, nothing otherwise, §4.2. -/
def lineExpenseDelta (accounts : List Account) (l : JournalLine) : Int :=
  match lookupAccountType accounts l.accountId with
  | some AccountType.expense => l.debit - l.credit
  | _ => 0

/-- Modelled from the spec: the Aggregator's result
`{date, companyId, incomeDelta, expenseDelta}`, §4.2. -/
structure SummaryDelta where
  date : Nat
  companyId : Nat
  incomeDelta : Int
  expenseDelta : Int
deriving DecidableEq, Repr

/-- Modelled from the spec: the pure Aggregator
`computeDelta(journalEntry) -> {date, companyId, incomeDelta, expenseDelta}`,
§4.2, summing the per-line contributions. -/
def computeDelta (accounts : List Account) (je : JournalEntry) : SummaryDelta :=
  { date := je.date
    companyId := je.companyId
    incomeDelta := (je.lines.map (lineIncomeDelta accounts)).sum
    expenseDelta := (je.lines.map (lineExpenseDelta accounts)).sum }

/-- Modelled from the spec: `recordExists(eventId) -> bool` on the Event Log,
§4.3. -/
def recordExists (log : List EventLogRecord) (eid : String) : Bool :=
  log.any (fun r => r.eventId == eid)

/-- Modelled from the spec: `tryClaim(eventId)` — atomically insert an
EventLogRecord keyed by eventId, backed by a uniqueness constraint; reports
whether the claim was won and returns the resulting log, §4.3. -/
def tryClaim (log : List EventLogRecord) (rec : EventLogRecord) :
    Bool × List EventLogRecord :=
  if recordExists log rec.eventId then (false, log) else (true, rec :: log)

/-- Modelled from the spec: envelope validation of §4.1 step 1 — eventId
non-empty and eventType known to this worker version. -/
def validEnvelope (env : EventEnvelope) : Bool :=
  env.eventId != "" && env.eventType == "journal.entry.created"

/-- Modelled from the spec: JournalEntry lookup via payload.journalEntryId,
§4.1 step 3. -/
def findEntry (entries : List JournalEntry) (jid : Nat) : Option JournalEntry :=
  entries.find? (fun je => je.id == jid)

/-- Modelled from the spec: applying an Aggregator delta to an existing
DailySummary row (running sums), §3/§4.1 step 3. -/
def applyDelta (s : DailySummary) (d : SummaryDelta) : DailySummary :=
  { s with
    totalIncome := s.totalIncome + d.incomeDelta
    totalExpense := s.totalExpense + d.expenseDelta }

/-- Modelled from the spec: read/upsert for DailySummary keyed by
(companyId, date) — the row is created lazily on first event for that day and
mutated in place by subsequent applied events, §3/§4.4. -/
def upsertSummary (ss : List DailySummary) (d : SummaryDelta) : List DailySummary :=
  match ss with
  | [] =>
    [{ companyId := d.companyId
       date := d.date
       totalIncome := d.incomeDelta
       totalExpense := d.expenseDelta }]
  | s :: rest =>
    if s.companyId == d.companyId && s.date == d.date then
      applyDelta s d :: rest
    else
      s :: upsertSummary rest d

/-- Modelled from the spec: the Ingestion Worker's
`handleDelivery(rawMessage) -> outcome`, §4.1.  A raw message decodes to at
most one envelope (`none` models an undecodable body).  The protocol: decode
and validate; claim the eventId through the uniqueness constraint; on a won
claim, load the referenced JournalEntry, compute the Aggregator delta, and
commit the log insert together with the summary upsert atomically; a lost
claim is a successful no-op; any failure leaves the store untouched. -/
def handleDelivery (st : Store) (raw : Option EventEnvelope) : Outcome × Store :=
  match raw with
  | none => (Outcome.decodeError, st)
  | some env =>
    if validEnvelope env then
      let newRec : EventLogRecord :=
        { eventId := env.eventId
          companyId := env.companyId
          eventType := env.eventType
          outcome := ProcessingOutcome.applied }
      let claim := tryClaim st.eventLog newRec
      if claim.1 then
        match findEntry st.entries env.payload.journalEntryId with
        | none => (Outcome.entryNotFound, st)
        | some je =>
          let d := computeDelta st.accounts je
          (Outcome.applied,
           { st with
             eventLog := claim.2
             summaries := upsertSummary st.summaries d })
      else
        (Outcome.duplicateSkipped, st)
    else
      (Outcome.decodeError, st)

/-- Modelled from the spec: a sequence of deliveries folded through the worker;
the store's transaction isolation serializes concurrent invocations at the
eventId uniqueness constraint, so any interleaving is some such sequence, §5. -/
def deliverList (st : Store) (msgs : List (Option EventEnvelope)) : Store :=
  msgs.foldl (fun s m => (handleDelivery s m).2) st

/-- Modelled from the spec: the reporting result `{totalIncome, totalExpense}`,
§4.5. -/
structure PnL where
  totalIncome : Int
  totalExpense : Int
deriving DecidableEq, Repr

/-- Modelled from the spec: the reporting range check — a DailySummary row
belongs to the report when it is the company's and its date falls in
[fromDate, toDate] inclusive, §4.5. -/
def inRange (cid fromDate toDate : Nat) (s : DailySummary) : Bool :=
  s.companyId == cid && decide (fromDate ≤ s.date) && decide (s.date ≤ toDate)

/-- Modelled from the spec: `getPnL(companyId, fromDate, toDate)` — the sum of
DailySummary rows for that company whose date falls in [fromDate, toDate]
inclusive, §4.5. -/
def getPnL (ss : List DailySummary) (cid fromDate toDate : Nat) : PnL :=
  let rows := ss.filter (inRange cid fromDate toDate)
  { totalIncome := (rows.map DailySummary.totalIncome).sum
    totalExpense := (rows.map DailySummary.totalExpense).sum }

/-- Modelled from the spec: the double-entry balance check —
sum(debit) == sum(credit) across an entry's lines, §3/§4.4. -/
def balancedLines (ls : List JournalLine) : Bool :=
  (ls.map JournalLine.debit).sum == (ls.map JournalLine.credit).sum

/-- Modelled from the spec: entry creation, §4.4/§6 — validates the
double-entry balance invariant and fails the whole creation if unbalanced; on
success stores the JournalEntry and produces the corresponding EventEnvelope
with the supplied fresh eventId. -/
def createJournalEntry (st : Store) (req : JournalEntry) (eid : String)
    (now : Nat) : Option (Store × EventEnvelope) :=
  if balancedLines req.lines then
    some ({ st with entries := req :: st.entries },
      { eventId := eid
        eventType := "journal.entry.created"
        schemaVersion := "v1"
        occurredAt := now
        companyId := req.companyId
        source := "cashflow-api"
        payload :=
          { journalEntryId := req.id
            companyId := req.companyId
            totalDebit := (req.lines.map JournalLine.debit).sum
            totalCredit := (req.lines.map JournalLine.credit).sum } })
  else
    none

/-- The totals of the DailySummary row for a (companyId, date) key, zero when
the row does not exist yet. -/
def summaryTotals (ss : List DailySummary) (cid date : Nat) : Int × Int :=
  match ss.find? (fun s => s.companyId == cid && s.date == date) with
  | some s => (s.totalIncome, s.totalExpense)
  | none => (0, 0)

/-- At most one event-log record per eventId (the uniqueness constraint). -/
def uniqueEventIds (log : List EventLogRecord) : Prop :=
  List.Pairwise (fun a b => a.eventId ≠ b.eventId) log

/-- At most one event-log record per eventId carries outcome "applied". -/
def atMostOneApplied (log : List EventLogRecord) : Prop :=
  List.Pairwise
    (fun a b =>
      a.outcome = ProcessingOutcome.applied →
      b.outcome = ProcessingOutcome.applied → a.eventId ≠ b.eventId) log

/-- Concrete accounts used by the witnesses: an income account "4000" and a
cash (asset) account "1000", mirroring the scripts' scenario. -/
def exAccounts : List Account :=
  [{ id := 10, companyId := 1, code := "4000", name := "Sales", atype := AccountType.income },
   { id := 11, companyId := 1, code := "1000", name := "Cash", atype := AccountType.asset }]

/-- Concrete balanced journal entry: credit 100 on the income account, debit
100 on the cash account. -/
def exEntry : JournalEntry :=
  { id := 42, companyId := 1, date := 5, description := "e2e test entry"
    lines := [{ accountId := 10, debit := 0, credit := 100 },
              { accountId := 11, debit := 100, credit := 0 }] }

/-- A second concrete balanced journal entry on the same company and date. -/
def exEntry2 : JournalEntry :=
  { id := 43, companyId := 1, date := 5, description := "second entry"
    lines := [{ accountId := 10, debit := 0, credit := 50 },
              { accountId := 11, debit := 50, credit := 0 }] }

/-- Concrete envelope delivering exEntry under eventId "evt-1". -/
def exEnv : EventEnvelope :=
  { eventId := "evt-1", eventType := "journal.entry.created", schemaVersion := "v1"
    occurredAt := 0, companyId := 1, source := "cashflow-api"
    payload := { journalEntryId := 42, companyId := 1, totalDebit := 100, totalCredit := 100 } }

/-- Concrete envelope delivering exEntry2 under eventId "evt-2". -/
def exEnv2 : EventEnvelope :=
  { eventId := "evt-2", eventType := "journal.entry.created", schemaVersion := "v1"
    occurredAt := 0, companyId := 1, source := "cashflow-api"
    payload := { journalEntryId := 43, companyId := 1, totalDebit := 50, totalCredit := 50 } }

/-- Concrete envelope with a fresh eventId "evt-3" whose payload references the
same journalEntryId as exEnv (the buggy-producer scenario of §8). -/
def exEnv3 : EventEnvelope :=
  { eventId := "evt-3", eventType := "journal.entry.created", schemaVersion := "v1"
    occurredAt := 0, companyId := 1, source := "manual-test"
    payload := { journalEntryId := 42, companyId := 1, totalDebit := 1000, totalCredit := 1000 } }

/-- Concrete store holding the accounts and both entries, with an empty event
log and no summaries yet. -/
def exStore : Store :=
  { accounts := exAccounts, entries := [exEntry, exEntry2], eventLog := [], summaries := [] }

/-! ### Basic inversion and idempotency lemmas about handleDelivery -/

theorem handleDelivery_none (st : Store) :
    handleDelivery st none = (Outcome.decodeError, st) := rfl

theorem handleDelivery_invalid (st : Store) (env : EventEnvelope)
    (h : validEnvelope env = false) :
    handleDelivery st (some env) = (Outcome.decodeError, st) := by
  simp [handleDelivery, h]

theorem handleDelivery_dup (st : Store) (env : EventEnvelope)
    (hv : validEnvelope env = true)
    (h : recordExists st.eventLog env.eventId = true) :
    handleDelivery st (some env) = (Outcome.duplicateSkipped, st) := by
  simp [handleDelivery, hv, tryClaim, h]

theorem handleDelivery_notFound (st : Store) (env : EventEnvelope)
    (hv : validEnvelope env = true)
    (h : recordExists st.eventLog env.eventId = false)
    (he : findEntry st.entries env.payload.journalEntryId = none) :
    handleDelivery st (some env) = (Outcome.entryNotFound, st) := by
  simp [handleDelivery, hv, tryClaim, h, he]

theorem handleDelivery_applied (st : Store) (env : EventEnvelope) (je : JournalEntry)
    (hv : validEnvelope env = true)
    (h : recordExists st.eventLog env.eventId = false)
    (he : findEntry st.entries env.payload.journalEntryId = some je) :
    handleDelivery st (some env) =
      (Outcome.applied,
       { st with
         eventLog :=
           { eventId := env.eventId, companyId := env.companyId
             eventType := env.eventType, outcome := ProcessingOutcome.applied } :: st.eventLog
         summaries := upsertSummary st.summaries (computeDelta st.accounts je) }) := by
  simp [handleDelivery, hv, tryClaim, h, he]

/-- Inversion: an applied outcome pins down the whole transaction. -/
theorem handleDelivery_applied_inv (st st' : Store) (raw : Option EventEnvelope)
    (h : handleDelivery st raw = (Outcome.applied, st')) :
    ∃ env je, raw = some env ∧ validEnvelope env = true ∧
      recordExists st.eventLog env.eventId = false ∧
      findEntry st.entries env.payload.journalEntryId = some je ∧
      st' = { st with
        eventLog :=
          { eventId := env.eventId, companyId := env.companyId
            eventType := env.eventType, outcome := ProcessingOutcome.applied } :: st.eventLog
        summaries := upsertSummary st.summaries (computeDelta st.accounts je) } := by
  match raw with
  | none => simp [handleDelivery] at h
  | some env =>
    refine ⟨env, ?_⟩
    by_cases hv : validEnvelope env = true
    · by_cases hc : recordExists st.eventLog env.eventId = true
      · rw [handleDelivery_dup st env hv hc] at h
        simp at h
      · rw [Bool.not_eq_true] at hc
        cases he : findEntry st.entries env.payload.journalEntryId with
        | none => rw [handleDelivery_notFound st env hv hc he] at h; simp at h
        | some je =>
          rw [handleDelivery_applied st env je hv hc he] at h
          exact ⟨je, rfl, hv, hc, rfl, (Prod.mk.injEq _ _ _ _ ▸ h).2.symm⟩
    · rw [Bool.not_eq_true] at hv
      rw [handleDelivery_invalid st env hv] at h
      simp at h

/-- A non-applied outcome leaves the store untouched. -/
theorem handleDelivery_fail_eq (st : Store) (raw : Option EventEnvelope)
    (h : (handleDelivery st raw).1 ≠ Outcome.applied) :
    (handleDelivery st raw).2 = st := by
  match raw with
  | none => rfl
  | some env =>
    by_cases hv : validEnvelope env = true
    · by_cases hc : recordExists st.eventLog env.eventId = true
      · rw [handleDelivery_dup st env hv hc]
      · rw [Bool.not_eq_true] at hc
        cases he : findEntry st.entries env.payload.journalEntryId with
        | none => rw [handleDelivery_notFound st env hv hc he]
        | some je => exact absurd (by rw [handleDelivery_applied st env je hv hc he]) h
    · rw [Bool.not_eq_true] at hv
      rw [handleDelivery_invalid st env hv]

/-- Delivering the same message twice in a row: the second delivery never
changes the store. -/
theorem handleDelivery_idem (st : Store) (raw : Option EventEnvelope) :
    (handleDelivery (handleDelivery st raw).2 raw).2 = (handleDelivery st raw).2 := by
  match raw with
  | none => rfl
  | some env =>
    by_cases hv : validEnvelope env = true
    · by_cases hc : recordExists st.eventLog env.eventId = true
      · rw [handleDelivery_dup st env hv hc, handleDelivery_dup st env hv hc]
      · rw [Bool.not_eq_true] at hc
        cases he : findEntry st.entries env.payload.journalEntryId with
        | none =>
          rw [handleDelivery_notFound st env hv hc he,
              handleDelivery_notFound st env hv hc he]
        | some je =>
          rw [handleDelivery_applied st env je hv hc he]
          rw [handleDelivery_dup _ env hv (by simp [recordExists])]
    · rw [Bool.not_eq_true] at hv
      simp [handleDelivery_invalid st env hv]

theorem deliverList_nil (st : Store) : deliverList st [] = st := rfl

theorem deliverList_cons (st : Store) (m : Option EventEnvelope)
    (ms : List (Option EventEnvelope)) :
    deliverList st (m :: ms) = deliverList (handleDelivery st m).2 ms := rfl

/-- A store fixed by one delivery of a message is fixed by any number of them. -/
theorem deliverList_fix (st : Store) (m : Option EventEnvelope)
    (h : (handleDelivery st m).2 = st) (n : Nat) :
    deliverList st (List.replicate n m) = st := by
  induction n with
  | zero => rfl
  | succ k ih => rw [List.replicate_succ, deliverList_cons, h, ih]

/-- C1.  Idempotency of delivery: for every number n ≥ 1 of deliveries of the
identical envelope, the store — and in particular the DailySummary row for
every (companyId, date), hence for the event's own key — after n deliveries
through handleDelivery equals the state after exactly one delivery. -/
theorem C1_idempotency (st : Store) (env : EventEnvelope) (n : Nat) (h : 1 ≤ n) :
    deliverList st (List.replicate n (some env)) = deliverList st [some env]
    ∧ ∀ cid date : Nat,
        summaryTotals (deliverList st (List.replicate n (some env))).summaries cid date
          = summaryTotals (deliverList st [some env]).summaries cid date := by
  obtain ⟨k, rfl⟩ : ∃ k, n = k + 1 := ⟨n - 1, (Nat.succ_pred_eq_of_pos h).symm⟩
  have hfix : deliverList st (List.replicate (k + 1) (some env))
      = deliverList st [some env] := by
    rw [List.replicate_succ, deliverList_cons,
        deliverList_fix _ _ (handleDelivery_idem st (some env)) k]
    rfl
  exact ⟨hfix, fun cid date => by rw [hfix]⟩

/-- Witness for C1 at a concrete store, envelope and n = 3. -/
theorem C1_idempotency_witness :
    deliverList exStore (List.replicate 3 (some exEnv)) = deliverList exStore [some exEnv] :=
  (C1_idempotency exStore exEnv 3 (by decide)).1

theorem recordExists_false_iff (log : List EventLogRecord) (eid : String) :
    recordExists log eid = false ↔ ∀ r ∈ log, r.eventId ≠ eid := by
  simp [recordExists]

/-- One delivery preserves uniqueness of eventIds in the event log. -/
theorem uniqueEventIds_handleDelivery (st : Store) (m : Option EventEnvelope)
    (h : uniqueEventIds st.eventLog) :
    uniqueEventIds (handleDelivery st m).2.eventLog := by
  by_cases ha : (handleDelivery st m).1 = Outcome.applied
  · obtain ⟨env, je, hraw, hv, hc, he, hst⟩ :=
      handleDelivery_applied_inv st (handleDelivery st m).2 m
        (by rw [← ha])
    rw [hst]
    exact List.Pairwise.cons
      (fun r hr => Ne.symm ((recordExists_false_iff _ _).1 hc r hr)) h
  · rw [handleDelivery_fail_eq st m ha]
    exact h

/-- A whole sequence of deliveries preserves uniqueness of eventIds. -/
theorem uniqueEventIds_deliverList (st : Store) (msgs : List (Option EventEnvelope))
    (h : uniqueEventIds st.eventLog) :
    uniqueEventIds (deliverList st msgs).eventLog := by
  induction msgs generalizing st with
  | nil => exact h
  | cons m ms ih =>
    rw [deliverList_cons]
    exact ih _ (uniqueEventIds_handleDelivery st m h)

/-- The store reached by delivering exEnv once to exStore: "evt-1" applied. -/
def exStore1 : Store := (handleDelivery exStore (some exEnv)).2

/-- C2.  Event-log claim uniqueness: in every state reachable by a sequence of
handleDelivery invocations from an initial store with an empty event log (the
store's transaction isolation serializes interleavings into such sequences),
at most one EventLogRecord per eventId has outcome "applied"; tryClaim never
reports claimed: true twice for the same eventId; and of two deliveries of the
same eventId (well-formed envelopes) the one after the applied one gets
outcome "duplicate-skipped" and leaves the store — hence the aggregate —
unchanged, so the delta is applied exactly once. -/
theorem C2_claim_uniqueness (accounts : List Account) (entries : List JournalEntry)
    (msgs : List (Option EventEnvelope)) :
    atMostOneApplied
      (deliverList
        { accounts := accounts, entries := entries, eventLog := [], summaries := [] }
        msgs).eventLog
    ∧ (∀ (log : List EventLogRecord) (r1 r2 : EventLogRecord),
        r1.eventId = r2.eventId → (tryClaim log r1).1 = true →
        (tryClaim (tryClaim log r1).2 r2).1 = false)
    ∧ (∀ (st st1 : Store) (env1 env2 : EventEnvelope),
        env1.eventId = env2.eventId → validEnvelope env2 = true →
        handleDelivery st (some env1) = (Outcome.applied, st1) →
        handleDelivery st1 (some env2) = (Outcome.duplicateSkipped, st1)) := by
  refine ⟨?_, ?_, ?_⟩
  · exact List.Pairwise.imp (fun hne _ _ => hne)
      (uniqueEventIds_deliverList _ msgs List.Pairwise.nil)
  · intro log r1 r2 heq hclaim
    have hfresh : recordExists log r1.eventId = false := by
      by_contra hx
      rw [Bool.not_eq_false] at hx
      simp [tryClaim, hx] at hclaim
    have h2 : (tryClaim log r1).2 = r1 :: log := by simp [tryClaim, hfresh]
    rw [h2]
    have : recordExists (r1 :: log) r2.eventId = true := by
      simp [recordExists, heq]
    simp [tryClaim, this]
  · intro st st1 env1 env2 heq hv2 h1
    obtain ⟨env, je, hraw, hv, hc, he, hst⟩ := handleDelivery_applied_inv st st1 (some env1) h1
    obtain rfl : env1 = env := by injection hraw
    have hdup : recordExists st1.eventLog env2.eventId = true := by
      rw [hst]
      simp [recordExists, heq]
    exact handleDelivery_dup st1 env2 hv2 hdup

/-- Witness for C2: concrete duplicate delivery of "evt-1" after it has been
applied is skipped and leaves the store unchanged. -/
theorem C2_claim_uniqueness_witness :
    handleDelivery exStore1 (some exEnv) = (Outcome.duplicateSkipped, exStore1) :=
  (C2_claim_uniqueness exAccounts [exEntry, exEntry2] []).2.2
    exStore exStore1 exEnv exEnv rfl rfl rfl

/-- C3.  Atomicity of claim-and-apply: a delivery whose outcome is not
"applied" (lost claim, decode/validation failure, referenced entry missing)
leaves the event log and every DailySummary — the whole store — unchanged,
and an "applied" outcome commits the EventLogRecord insert and the
DailySummary mutation together, so no partial state is reachable. -/
theorem C3_atomicity (st st' : Store) (raw : Option EventEnvelope) (o : Outcome)
    (h : handleDelivery st raw = (o, st')) :
    (o ≠ Outcome.applied → st' = st)
    ∧ (o = Outcome.applied → ∃ env je, raw = some env ∧
        findEntry st.entries env.payload.journalEntryId = some je ∧
        st'.eventLog =
          { eventId := env.eventId, companyId := env.companyId
            eventType := env.eventType, outcome := ProcessingOutcome.applied } :: st.eventLog ∧
        st'.summaries = upsertSummary st.summaries (computeDelta st.accounts je)) := by
  constructor
  · intro hne
    have h2 : (handleDelivery st raw).2 = st :=
      handleDelivery_fail_eq st raw (by rw [h]; exact hne)
    rw [h] at h2
    exact h2
  · intro ho
    subst ho
    obtain ⟨env, je, hraw, hv, hc, he, hst⟩ := handleDelivery_applied_inv st st' raw h
    exact ⟨env, je, hraw, he, by rw [hst], by rw [hst]⟩

/-- Witness for C3 at a concrete failing delivery (undecodable body): the
store is untouched. -/
theorem C3_atomicity_witness : (handleDelivery exStore none).2 = exStore :=
  (C3_atomicity exStore exStore none Outcome.decodeError rfl).1 (by decide)

theorem lineIncomeDelta_eq (accounts : List Account) (l : JournalLine) :
    lineIncomeDelta accounts l =
      if lookupAccountType accounts l.accountId = some AccountType.income
      then l.credit - l.debit else 0 := by
  unfold lineIncomeDelta
  cases h : lookupAccountType accounts l.accountId with
  | none => simp
  | some t => cases t <;> simp

theorem lineExpenseDelta_eq (accounts : List Account) (l : JournalLine) :
    lineExpenseDelta accounts l =
      if lookupAccountType accounts l.accountId = some AccountType.expense
      then l.debit - l.credit else 0 := by
  unfold lineExpenseDelta
  cases h : lookupAccountType accounts l.accountId with
  | none => simp
  | some t => cases t <;> simp

/-- Summing the per-line income contributions is summing `credit - debit`
over exactly the lines on income accounts. -/
theorem sum_lineIncomeDelta (accounts : List Account) (ls : List JournalLine) :
    (ls.map (lineIncomeDelta accounts)).sum =
      ((ls.filter
          (fun l => lookupAccountType accounts l.accountId == some AccountType.income)).map
        (fun l => l.credit - l.debit)).sum := by
  induction ls with
  | nil => rfl
  | cons l ls ih =>
    by_cases h : lookupAccountType accounts l.accountId = some AccountType.income
    · simp [List.filter_cons, h, lineIncomeDelta_eq, ih]
    · simp [List.filter_cons, h, lineIncomeDelta_eq, ih]

/-- Summing the per-line expense contributions is summing `debit - credit`
over exactly the lines on expense accounts. -/
theorem sum_lineExpenseDelta (accounts : List Account) (ls : List JournalLine) :
    (ls.map (lineExpenseDelta accounts)).sum =
      ((ls.filter
          (fun l => lookupAccountType accounts l.accountId == some AccountType.expense)).map
        (fun l => l.debit - l.credit)).sum := by
  induction ls with
  | nil => rfl
  | cons l ls ih =>
    by_cases h : lookupAccountType accounts l.accountId = some AccountType.expense
    · simp [List.filter_cons, h, lineExpenseDelta_eq, ih]
    · simp [List.filter_cons, h, lineExpenseDelta_eq, ih]

/-- C4.  Aggregator correctness: computeDelta carries the entry's date and
companyId; its incomeDelta is the sum of `credit - debit` over the entry's
lines on income accounts, its expenseDelta the sum of `debit - credit` over
the lines on expense accounts, and a line on an asset, liability or equity
account contributes nothing to either total. -/
theorem C4_aggregator (accounts : List Account) (je : JournalEntry) :
    (computeDelta accounts je).date = je.date
    ∧ (computeDelta accounts je).companyId = je.companyId
    ∧ (computeDelta accounts je).incomeDelta =
        ((je.lines.filter
            (fun l => lookupAccountType accounts l.accountId == some AccountType.income)).map
          (fun l => l.credit - l.debit)).sum
    ∧ (computeDelta accounts je).expenseDelta =
        ((je.lines.filter
            (fun l => lookupAccountType accounts l.accountId == some AccountType.expense)).map
          (fun l => l.debit - l.credit)).sum
    ∧ (∀ l : JournalLine,
        (lookupAccountType accounts l.accountId = some AccountType.asset ∨
         lookupAccountType accounts l.accountId = some AccountType.liability ∨
         lookupAccountType accounts l.accountId = some AccountType.equity) →
        lineIncomeDelta accounts l = 0 ∧ lineExpenseDelta accounts l = 0) := by
  refine ⟨rfl, rfl, sum_lineIncomeDelta accounts je.lines,
    sum_lineExpenseDelta accounts je.lines, ?_⟩
  intro l hl
  rw [lineIncomeDelta_eq, lineExpenseDelta_eq]
  rcases hl with h | h | h <;> rw [h] <;> exact ⟨by simp, by simp⟩

/-- Witness for C4: the concrete cash (asset) line contributes nothing. -/
theorem C4_aggregator_witness :
    lineIncomeDelta exAccounts { accountId := 11, debit := 100, credit := 0 } = 0
    ∧ lineExpenseDelta exAccounts { accountId := 11, debit := 100, credit := 0 } = 0 :=
  (C4_aggregator exAccounts exEntry).2.2.2.2
    { accountId := 11, debit := 100, credit := 0 } (Or.inl rfl)

theorem inRange_iff (cid f t : Nat) (s : DailySummary) :
    inRange cid f t s = true ↔ (s.companyId = cid ∧ f ≤ s.date ∧ s.date ≤ t) := by
  simp [inRange, and_assoc]

/-- C5.  Reporting correctness: getPnL returns exactly the sums, over all
DailySummary rows, of the income and expense totals of the rows belonging to
the company whose date lies in the closed interval [fromDate, toDate]; and
when no row of that company lies in the range (in particular when no event
has been applied for it there), it returns zero totals, not an error. -/
theorem C5_reporting (ss : List DailySummary) (cid f t : Nat) :
    (getPnL ss cid f t).totalIncome =
      (ss.map (fun s =>
        if s.companyId = cid ∧ f ≤ s.date ∧ s.date ≤ t then s.totalIncome else 0)).sum
    ∧ (getPnL ss cid f t).totalExpense =
      (ss.map (fun s =>
        if s.companyId = cid ∧ f ≤ s.date ∧ s.date ≤ t then s.totalExpense else 0)).sum
    ∧ ((∀ s ∈ ss, ¬(s.companyId = cid ∧ f ≤ s.date ∧ s.date ≤ t)) →
        getPnL ss cid f t = { totalIncome := 0, totalExpense := 0 }) := by
  refine ⟨?_, ?_, ?_⟩
  · induction ss with
    | nil => rfl
    | cons s rest ih =>
      by_cases h : s.companyId = cid ∧ f ≤ s.date ∧ s.date ≤ t
      · have hb : inRange cid f t s = true := (inRange_iff cid f t s).2 h
        simp [getPnL, List.filter_cons, hb, h] at ih ⊢
        exact ih
      · have hb : inRange cid f t s = false := by
          rw [← Bool.not_eq_true, inRange_iff]; exact h
        simp [getPnL, List.filter_cons, hb, h] at ih ⊢
        exact ih
  · induction ss with
    | nil => rfl
    | cons s rest ih =>
      by_cases h : s.companyId = cid ∧ f ≤ s.date ∧ s.date ≤ t
      · have hb : inRange cid f t s = true := (inRange_iff cid f t s).2 h
        simp [getPnL, List.filter_cons, hb, h] at ih ⊢
        exact ih
      · have hb : inRange cid f t s = false := by
          rw [← Bool.not_eq_true, inRange_iff]; exact h
        simp [getPnL, List.filter_cons, hb, h] at ih ⊢
        exact ih
  · intro hnone
    have hfil : ss.filter (inRange cid f t) = [] := by
      rw [List.filter_eq_nil_iff]
      intro s hs
      rw [Bool.not_eq_true, ← Bool.not_eq_true, inRange_iff]
      exact hnone s hs
    simp [getPnL, hfil]

/-- Witness for C5: a single out-of-range row yields zero totals. -/
theorem C5_reporting_witness :
    getPnL [{ companyId := 1, date := 10, totalIncome := 7, totalExpense := 3 }] 1 5 6
      = { totalIncome := 0, totalExpense := 0 } :=
  (C5_reporting [{ companyId := 1, date := 10, totalIncome := 7, totalExpense := 3 }] 1 5 6).2.2
    (by decide)

/-- The double-entry balance invariant as a proposition on a stored entry. -/
def balancedEntry (je : JournalEntry) : Prop :=
  (je.lines.map JournalLine.debit).sum = (je.lines.map JournalLine.credit).sum

/-- Inversion of a successful entry creation. -/
theorem createJournalEntry_some_inv (st : Store) (req : JournalEntry) (eid : String)
    (now : Nat) (st' : Store) (env : EventEnvelope)
    (h : createJournalEntry st req eid now = some (st', env)) :
    balancedLines req.lines = true ∧ st'.entries = req :: st.entries := by
  by_cases hb : balancedLines req.lines = true
  · refine ⟨hb, ?_⟩
    simp [createJournalEntry, hb] at h
    rw [← h.1]
  · rw [Bool.not_eq_true] at hb
    simp [createJournalEntry, hb] at h

/-- C6.  Balance invariant at entry creation: a requested journal entry whose
lines sum to unequal debit and credit totals makes creation fail as a whole —
no JournalEntry is stored and no EventEnvelope is produced — and creation
preserves the invariant that every stored JournalEntry has balanced lines. -/
theorem C6_balance (st : Store) (req : JournalEntry) (eid : String) (now : Nat) :
    (¬ balancedEntry req → createJournalEntry st req eid now = none)
    ∧ (∀ (st' : Store) (env : EventEnvelope),
        createJournalEntry st req eid now = some (st', env) →
        (∀ je ∈ st.entries, balancedEntry je) → ∀ je ∈ st'.entries, balancedEntry je) := by
  constructor
  · intro hne
    have hb : balancedLines req.lines = false := by
      rw [← Bool.not_eq_true]
      intro hx
      exact hne (by simpa [balancedLines, balancedEntry] using hx)
    simp [createJournalEntry, hb]
  · intro st' env h hall je hje
    obtain ⟨hb, hent⟩ := createJournalEntry_some_inv st req eid now st' env h
    rw [hent] at hje
    rcases List.mem_cons.1 hje with rfl | hmem
    · simpa [balancedLines, balancedEntry] using hb
    · exact hall je hmem

/-- A concrete unbalanced creation request: a lone credit-100 line. -/
def exUnbalanced : JournalEntry :=
  { id := 99, companyId := 1, date := 5, description := "unbalanced"
    lines := [{ accountId := 10, debit := 0, credit := 100 }] }

/-- Witness for C6: the concrete unbalanced request is rejected whole. -/
theorem C6_balance_witness :
    createJournalEntry exStore exUnbalanced "evt-bad" 0 = none :=
  (C6_balance exStore exUnbalanced "evt-bad" 0).1 (by simp [balancedEntry, exUnbalanced])

theorem upsertSummary_cons (s : DailySummary) (rest : List DailySummary)
    (d : SummaryDelta) :
    upsertSummary (s :: rest) d =
      if s.companyId == d.companyId && s.date == d.date then applyDelta s d :: rest
      else s :: upsertSummary rest d := rfl

theorem summaryTotals_cons (s : DailySummary) (rest : List DailySummary)
    (cid date : Nat) :
    summaryTotals (s :: rest) cid date =
      if s.companyId == cid && s.date == date then (s.totalIncome, s.totalExpense)
      else summaryTotals rest cid date := by
  by_cases h : (s.companyId == cid && s.date == date) = true
  · simp [summaryTotals, List.find?_cons_of_pos _ h, h]
  · simp [summaryTotals, List.find?_cons_of_neg _ h, h]

/-- Upserting a delta adds its components to the totals of its own
(companyId, date) row. -/
theorem summaryTotals_upsert (ss : List DailySummary) (d : SummaryDelta) :
    summaryTotals (upsertSummary ss d) d.companyId d.date =
      ((summaryTotals ss d.companyId d.date).1 + d.incomeDelta,
       (summaryTotals ss d.companyId d.date).2 + d.expenseDelta) := by
  induction ss with
  | nil => simp [upsertSummary, summaryTotals]
  | cons s rest ih =>
    by_cases h : (s.companyId == d.companyId && s.date == d.date) = true
    · have hkey : ((applyDelta s d).companyId == d.companyId
          && (applyDelta s d).date == d.date) = true := by
        simpa [applyDelta] using h
      rw [upsertSummary_cons, if_pos h, summaryTotals_cons, if_pos hkey,
        summaryTotals_cons, if_pos h]
      simp [applyDelta]
    · rw [upsertSummary_cons, if_neg h, summaryTotals_cons, if_neg h,
        summaryTotals_cons, if_neg h, ih]

/-- A delivery never changes the accounts or the journal entries. -/
theorem handleDelivery_entries (st : Store) (raw : Option EventEnvelope) :
    (handleDelivery st raw).2.entries = st.entries
    ∧ (handleDelivery st raw).2.accounts = st.accounts := by
  by_cases ha : (handleDelivery st raw).1 = Outcome.applied
  · obtain ⟨env, je, hraw, hv, hc, he, hst⟩ :=
      handleDelivery_applied_inv st (handleDelivery st raw).2 raw (by rw [← ha])
    rw [hst]
    exact ⟨rfl, rfl⟩
  · rw [handleDelivery_fail_eq st raw ha]
    exact ⟨rfl, rfl⟩

/-- Applying two fresh distinct events in one given order accumulates both
deltas on the shared (companyId, date) summary row. -/
theorem totals_after_two (st : Store) (env1 env2 : EventEnvelope)
    (je1 je2 : JournalEntry)
    (hv1 : validEnvelope env1 = true) (hv2 : validEnvelope env2 = true)
    (hne : env1.eventId ≠ env2.eventId)
    (h1 : findEntry st.entries env1.payload.journalEntryId = some je1)
    (h2 : findEntry st.entries env2.payload.journalEntryId = some je2)
    (hcid : je2.companyId = je1.companyId) (hdate : je2.date = je1.date)
    (hf1 : recordExists st.eventLog env1.eventId = false)
    (hf2 : recordExists st.eventLog env2.eventId = false) :
    summaryTotals (deliverList st [some env1, some env2]).summaries
        je1.companyId je1.date
      = ((summaryTotals st.summaries je1.companyId je1.date).1
           + (computeDelta st.accounts je1).incomeDelta
           + (computeDelta st.accounts je2).incomeDelta,
         (summaryTotals st.summaries je1.companyId je1.date).2
           + (computeDelta st.accounts je1).expenseDelta
           + (computeDelta st.accounts je2).expenseDelta) := by
  have hstep1 := handleDelivery_applied st env1 je1 hv1 hf1 h1
  have hlist : deliverList st [some env1, some env2]
      = (handleDelivery (handleDelivery st (some env1)).2 (some env2)).2 := rfl
  rw [hlist, hstep1]
  set st1 : Store :=
    { st with
      eventLog :=
        { eventId := env1.eventId, companyId := env1.companyId
          eventType := env1.eventType, outcome := ProcessingOutcome.applied } :: st.eventLog
      summaries := upsertSummary st.summaries (computeDelta st.accounts je1) } with hst1
  have hf2' : recordExists st1.eventLog env2.eventId = false := by
    rw [hst1]
    simp only [recordExists, List.any_cons]
    rw [recordExists] at hf2
    simp only [hf2, Bool.or_false]
    simpa using hne
  have h2' : findEntry st1.entries env2.payload.journalEntryId = some je2 := h2
  have hstep2 := handleDelivery_applied st1 env2 je2 hv2 hf2' h2'
  rw [hstep2]
  have hacc : st1.accounts = st.accounts := rfl
  have hsum : st1.summaries = upsertSummary st.summaries (computeDelta st.accounts je1) := rfl
  show summaryTotals
      (upsertSummary st1.summaries (computeDelta st1.accounts je2)) je1.companyId je1.date = _
  rw [hacc, hsum]
  have hd2c : (computeDelta st.accounts je2).companyId = je1.companyId := hcid
  have hd2d : (computeDelta st.accounts je2).date = je1.date := hdate
  have := summaryTotals_upsert
    (upsertSummary st.summaries (computeDelta st.accounts je1)) (computeDelta st.accounts je2)
  rw [hd2c, hd2d] at this
  rw [this]
  have h1' := summaryTotals_upsert st.summaries (computeDelta st.accounts je1)
  have hd1c : (computeDelta st.accounts je1).companyId = je1.companyId := rfl
  have hd1d : (computeDelta st.accounts je1).date = je1.date := rfl
  rw [hd1c, hd1d] at h1'
  rw [h1']

/-- C7.  Distinct-event additivity and order independence: two distinct fresh
eventIds referencing two distinct balanced journal entries on the same company
and date, delivered in either order, yield a DailySummary row whose
totalIncome and totalExpense are the sums of the two entries' individually
computed Aggregator deltas (starting from an absent row). -/
theorem C7_additivity (st : Store) (env1 env2 : EventEnvelope)
    (je1 je2 : JournalEntry)
    (hv1 : validEnvelope env1 = true) (hv2 : validEnvelope env2 = true)
    (hne : env1.eventId ≠ env2.eventId)
    (h1 : findEntry st.entries env1.payload.journalEntryId = some je1)
    (h2 : findEntry st.entries env2.payload.journalEntryId = some je2)
    (hjne : je1.id ≠ je2.id)
    (hb1 : balancedEntry je1) (hb2 : balancedEntry je2)
    (hcid : je2.companyId = je1.companyId) (hdate : je2.date = je1.date)
    (hf1 : recordExists st.eventLog env1.eventId = false)
    (hf2 : recordExists st.eventLog env2.eventId = false)
    (hzero : summaryTotals st.summaries je1.companyId je1.date = (0, 0)) :
    summaryTotals (deliverList st [some env1, some env2]).summaries
        je1.companyId je1.date
      = ((computeDelta st.accounts je1).incomeDelta
           + (computeDelta st.accounts je2).incomeDelta,
         (computeDelta st.accounts je1).expenseDelta
           + (computeDelta st.accounts je2).expenseDelta)
    ∧ summaryTotals (deliverList st [some env2, some env1]).summaries
        je1.companyId je1.date
      = ((computeDelta st.accounts je1).incomeDelta
           + (computeDelta st.accounts je2).incomeDelta,
         (computeDelta st.accounts je1).expenseDelta
           + (computeDelta st.accounts je2).expenseDelta) := by
  constructor
  · rw [totals_after_two st env1 env2 je1 je2 hv1 hv2 hne h1 h2 hcid hdate hf1 hf2, hzero]
    simp
  · have h21 := totals_after_two st env2 env1 je2 je1 hv2 hv1 (Ne.symm hne) h2 h1
      hcid.symm hdate.symm hf2 hf1
    rw [hcid, hdate] at h21
    rw [h21, hzero]
    simp only [Prod.mk.injEq]
    constructor <;> ring

/-- Witness for C7: delivering the two concrete entries in both orders yields
income 150 on the shared day. -/
theorem C7_additivity_witness :
    summaryTotals (deliverList exStore [some exEnv, some exEnv2]).summaries
        exEntry.companyId exEntry.date
      = ((computeDelta exStore.accounts exEntry).incomeDelta
           + (computeDelta exStore.accounts exEntry2).incomeDelta,
         (computeDelta exStore.accounts exEntry).expenseDelta
           + (computeDelta exStore.accounts exEntry2).expenseDelta)
    ∧ summaryTotals (deliverList exStore [some exEnv2, some exEnv]).summaries
        exEntry.companyId exEntry.date
      = ((computeDelta exStore.accounts exEntry).incomeDelta
           + (computeDelta exStore.accounts exEntry2).incomeDelta,
         (computeDelta exStore.accounts exEntry).expenseDelta
           + (computeDelta exStore.accounts exEntry2).expenseDelta) :=
  C7_additivity exStore exEnv exEnv2 exEntry exEntry2 rfl rfl (by decide) rfl rfl
    (by decide) (by simp [balancedEntry, exEntry]) (by simp [balancedEntry, exEntry2])
    rfl rfl rfl rfl rfl

/-- C8.  Dedup keys on eventId, not journalEntryId: a delivery with a fresh,
previously unclaimed eventId whose payload references the journalEntryId that
an earlier applied event already referenced is applied again, adding the
entry's delta to the summary a second time; and a delivery is only ever
skipped as a duplicate when its eventId is already claimed in the log. -/
theorem C8_dedup_eventId (st st1 : Store) (env1 env2 : EventEnvelope) (je : JournalEntry)
    (h1 : handleDelivery st (some env1) = (Outcome.applied, st1))
    (hje : findEntry st.entries env1.payload.journalEntryId = some je)
    (hsame : env2.payload.journalEntryId = env1.payload.journalEntryId)
    (hv2 : validEnvelope env2 = true)
    (hfresh : recordExists st1.eventLog env2.eventId = false) :
    ((handleDelivery st1 (some env2)).1 = Outcome.applied
     ∧ summaryTotals (handleDelivery st1 (some env2)).2.summaries je.companyId je.date
         = ((summaryTotals st1.summaries je.companyId je.date).1
              + (computeDelta st.accounts je).incomeDelta,
            (summaryTotals st1.summaries je.companyId je.date).2
              + (computeDelta st.accounts je).expenseDelta))
    ∧ (∀ (st0 : Store) (env : EventEnvelope),
        (handleDelivery st0 (some env)).1 = Outcome.duplicateSkipped →
        recordExists st0.eventLog env.eventId = true) := by
  constructor
  · obtain ⟨env, je', hraw, hv, hc, he, hst⟩ :=
      handleDelivery_applied_inv st st1 (some env1) h1
    obtain rfl : env1 = env := by injection hraw
    have hent : st1.entries = st.entries := by rw [hst]
    have hacc : st1.accounts = st.accounts := by rw [hst]
    have h2' : findEntry st1.entries env2.payload.journalEntryId = some je := by
      rw [hent, hsame]; exact hje
    have hstep := handleDelivery_applied st1 env2 je hv2 hfresh h2'
    rw [hstep]
    refine ⟨rfl, ?_⟩
    show summaryTotals (upsertSummary st1.summaries (computeDelta st1.accounts je))
        je.companyId je.date = _
    rw [hacc]
    exact summaryTotals_upsert st1.summaries (computeDelta st.accounts je)
  · intro st0 env hdup
    by_cases hv : validEnvelope env = true
    · by_cases hc : recordExists st0.eventLog env.eventId = true
      · exact hc
      · rw [Bool.not_eq_true] at hc
        exfalso
        cases he : findEntry st0.entries env.payload.journalEntryId with
        | none => rw [handleDelivery_notFound st0 env hv hc he] at hdup; simp at hdup
        | some je0 => rw [handleDelivery_applied st0 env je0 hv hc he] at hdup; simp at hdup
    · rw [Bool.not_eq_true] at hv
      rw [handleDelivery_invalid st0 env hv] at hdup
      simp at hdup

/-- Witness for C8: after "evt-1" applied exEntry, the fresh eventId "evt-3"
referencing the same journalEntryId is applied again, doubling the totals. -/
theorem C8_dedup_eventId_witness :
    ((handleDelivery exStore1 (some exEnv3)).1 = Outcome.applied
     ∧ summaryTotals (handleDelivery exStore1 (some exEnv3)).2.summaries
         exEntry.companyId exEntry.date
         = ((summaryTotals exStore1.summaries exEntry.companyId exEntry.date).1
              + (computeDelta exStore.accounts exEntry).incomeDelta,
            (summaryTotals exStore1.summaries exEntry.companyId exEntry.date).2
              + (computeDelta exStore.accounts exEntry).expenseDelta))
    ∧ (∀ (st0 : Store) (env : EventEnvelope),
        (handleDelivery st0 (some env)).1 = Outcome.duplicateSkipped →
        recordExists st0.eventLog env.eventId = true) :=
  C8_dedup_eventId exStore exStore1 exEnv exEnv3 exEntry rfl rfl rfl rfl rfl

/-- C9.  Duplicate delivery is a successful outcome, not an error: a
well-formed delivery whose eventId is already claimed performs no mutation,
gets outcome "duplicate-skipped", and is acknowledged as success, with the
duplicate outcome acknowledged exactly like "applied". -/
theorem C9_duplicate_success (st : Store) (env : EventEnvelope)
    (hv : validEnvelope env = true)
    (hdup : recordExists st.eventLog env.eventId = true) :
    handleDelivery st (some env) = (Outcome.duplicateSkipped, st)
    ∧ ackOutcome (handleDelivery st (some env)).1 = true
    ∧ ackOutcome Outcome.duplicateSkipped = ackOutcome Outcome.applied := by
  have h := handleDelivery_dup st env hv hdup
  exact ⟨h, by rw [h]; rfl, rfl⟩


/-- Witness for C9: re-delivering "evt-1" after it was applied. -/
theorem C9_duplicate_success_witness :
    handleDelivery exStore1 (some exEnv) = (Outcome.duplicateSkipped, exStore1)
    ∧ ackOutcome (handleDelivery exStore1 (some exEnv)).1 = true
    ∧ ackOutcome Outcome.duplicateSkipped = ackOutcome Outcome.applied :=
  C9_duplicate_success exStore1 exEnv rfl rfl

/-- C10.  The aggregate effect of a delivery depends only on the JournalEntry
loaded via payload.journalEntryId: two envelopes identical except in the
payload's totalDebit and totalCredit fields produce exactly the same outcome
and the same store — in particular the same DailySummary mutation. -/
theorem C10_payload_totals_irrelevant (st : Store) (env : EventEnvelope)
    (td tc td2 tc2 : Int) :
    handleDelivery st
      (some { env with payload :=
        { env.payload with totalDebit := td, totalCredit := tc } })
      = handleDelivery st
        (some { env with payload :=
          { env.payload with totalDebit := td2, totalCredit := tc2 } }) := rfl

end SimpleCashflow
